import Mathlib

/-!
Verification of the alpha-video-generator chroma-key core.

The GLSL fragment shaders and the video-processing pipeline are shallowly
embedded over the rationals: every GLSL float expression is translated to an
exact rational computation (GLSL builtins clamp, step, smoothstep, mix become
the functions clampQ, stepQ, smoothstepQ, mixQ below), and the stateful
frame loops become pure list-producing functions.  Pixel samples are
normalized RGB values in [0,1].
-/

namespace AlphaVideo

/-- A GLSL vec3 value, modelled with exact rational components. -/
structure Vec3 where
  x : ℚ
  y : ℚ
  z : ℚ
deriving DecidableEq

/-- A GLSL vec4 value (RGBA output of a fragment shader). -/
structure Vec4 where
  x : ℚ
  y : ℚ
  z : ℚ
  w : ℚ
deriving DecidableEq

/-- GLSL clamp(x, lo, hi). -/
def clampQ (x lo hi : ℚ) : ℚ := min (max x lo) hi

/-- GLSL step(edge, x): 0.0 when x < edge, otherwise 1.0. -/
def stepQ (edge x : ℚ) : ℚ := if x < edge then 0 else 1

/-- GLSL smoothstep(edge0, edge1, x): cubic Hermite interpolation of the
clamped normalized parameter. -/
def smoothstepQ (edge0 edge1 x : ℚ) : ℚ :=
  let t := clampQ ((x - edge0) / (edge1 - edge0)) 0 1
  t * t * (3 - 2 * t)

/-- GLSL mix(a, b, t) = a*(1-t) + b*t. -/
def mixQ (a b t : ℚ) : ℚ := a * (1 - t) + b * t

/-- The epsilon constant 1.0e-10 used by the rgb2hsv shader function. -/
def epsQ : ℚ := 1 / 10000000000

/-- The rgb2hsv function shared (verbatim) by maskFragmentShader and
blackBgFragmentShader in src/unnamed/part_001.  The vec4 swizzles of the
GLSL source are written out componentwise:
p = mix(vec4(c.bg, K.wz), vec4(c.gb, K.xy), step(c.b, c.g)),
q = mix(vec4(p.xyw, c.r), vec4(c.r, p.yzx), step(p.x, c.r)),
with K = (0, -1/3, 2/3, -1).  Returns (H in [0,1], S, V). -/
def rgb2hsv (c : Vec3) : Vec3 :=
  let s1 := stepQ c.z c.y
  let px := mixQ c.z c.y s1
  let py := mixQ c.y c.z s1
  let pz := mixQ (-1) 0 s1
  let pw := mixQ (2/3) (-1/3) s1
  let s2 := stepQ px c.x
  let qx := mixQ px c.x s2
  let qy := mixQ py py s2
  let qz := mixQ pw pz s2
  let qw := mixQ c.x px s2
  let d := qx - min qw qy
  ⟨|qz + (qw - qy) / (6 * d + epsQ)|, d / (qx + epsQ), qx⟩

/-- ChromaKeySettings from src/lib/webgl/chromaKey.ts. -/
structure ChromaKeySettings where
  hueTarget : ℚ
  hueRange : ℚ
  satMin : ℚ
  valMin : ℚ
  valMax : ℚ
  smoothness : ℚ
  spillSuppression : ℚ
deriving DecidableEq

/-- GREEN_SCREEN_SETTINGS preset from src/lib/webgl/chromaKey.ts. -/
def GREEN_SCREEN_SETTINGS : ChromaKeySettings :=
  { hueTarget := 120
    hueRange := 80
    satMin := 15/100
    valMin := 1/10
    valMax := 98/100
    smoothness := 12/100
    spillSuppression := 7/10 }

/-- BLUE_SCREEN_SETTINGS preset from src/lib/webgl/chromaKey.ts. -/
def BLUE_SCREEN_SETTINGS : ChromaKeySettings :=
  { hueTarget := 240
    hueRange := 80
    satMin := 15/100
    valMin := 1/10
    valMax := 98/100
    smoothness := 12/100
    spillSuppression := 7/10 }

/-- The per-pixel alpha computation that appears, textually identical, in the
main() of both maskFragmentShader (lines 44-75) and blackBgFragmentShader
(lines 127-151) of src/unnamed/part_001: hue/saturation/value matching,
channel-dominance check, combined key strength, and the smoothness edge. -/
def shaderAlpha (c : Vec3) (s : ChromaKeySettings) : ℚ :=
  let hsv := rgb2hsv c
  let hue := hsv.x * 360
  let sat := hsv.y
  let val := hsv.z
  let hueDiff0 := |hue - s.hueTarget|
  let hueDiff := if hueDiff0 > 180 then 360 - hueDiff0 else hueDiff0
  let hueMatch := 1 - smoothstepQ (s.hueRange * (1/2)) s.hueRange hueDiff
  let satMatch := smoothstepQ (s.satMin * (1/2)) s.satMin sat
  let valMatch := stepQ s.valMin val * stepQ val s.valMax
  let dominance :=
    if s.hueTarget < 180 then smoothstepQ 0 (1/10) (c.y - max c.x c.z)
    else smoothstepQ 0 (1/10) (c.z - max c.x c.y)
  let keyStrength := hueMatch * satMatch * valMatch * dominance
  1 - smoothstepQ (3/10 - s.smoothness) (3/10 + s.smoothness) keyStrength

/-- Per-pixel output of maskFragmentShader: gl_FragColor = vec4(vec3(alpha), 1.0). -/
def maskShaderPixel (c : Vec3) (s : ChromaKeySettings) : Vec4 :=
  let alpha := shaderAlpha c s
  ⟨alpha, alpha, alpha, 1⟩

/-- suppressSpill from blackBgFragmentShader (src/unnamed/part_001 lines
108-125).  The key channel loses excess*amount; the other two channels gain
excess*amount*0.2, clamped at 1. -/
def suppressSpill (color : Vec3) (amount : ℚ) (isGreen : Bool) : Vec3 :=
  if isGreen then
    let avg := (color.x + color.z) * (1/2)
    let excess := max 0 (color.y - avg)
    ⟨min 1 (color.x + excess * amount * (1/5)),
     color.y - excess * amount,
     min 1 (color.z + excess * amount * (1/5))⟩
  else
    let avg := (color.x + color.y) * (1/2)
    let excess := max 0 (color.z - avg)
    ⟨min 1 (color.x + excess * amount * (1/5)),
     min 1 (color.y + excess * amount * (1/5)),
     color.z - excess * amount⟩

/-- Per-pixel output of blackBgFragmentShader: the shared alpha computation,
then spill suppression with strength u_spillSuppression * (1 - alpha*0.5),
then blending over black: gl_FragColor = vec4(despilled * alpha, 1.0). -/
def blackBgShaderPixel (c : Vec3) (s : ChromaKeySettings) : Vec4 :=
  let alpha := shaderAlpha c s
  let isGreen : Bool := decide (s.hueTarget < 180)
  let spillStrength := s.spillSuppression * (1 - alpha * (1/2))
  let despilled := suppressSpill c spillStrength isGreen
  ⟨despilled.x * alpha, despilled.y * alpha, despilled.z * alpha, 1⟩

/-- Conversion of a shader output component to the byte stored by
readPixels with UNSIGNED_BYTE: round(clamp(v,0,1) * 255). -/
def toByte (v : ℚ) : ℤ := ⌊clampQ v 0 1 * 255 + 1/2⌋

/-- The colorType argument of VideoProcessor.processFrames. -/
inductive ColorType
  | green
  | blue
deriving DecidableEq

/-- The settings resolution in VideoProcessor.processFrames:
colorType === green ? GREEN_SCREEN_SETTINGS : BLUE_SCREEN_SETTINGS. -/
def settingsFor (colorType : ColorType) : ChromaKeySettings :=
  match colorType with
  | .green => GREEN_SCREEN_SETTINGS
  | .blue => BLUE_SCREEN_SETTINGS

/-- Result of VideoProcessor.processFrames, together with the number of
ChromaKeyProcessor instances (GPU Pipeline Contexts) the call constructed. -/
structure ProcessFramesResult where
  mask : List (List Vec4)
  black : List (List Vec4)
  contextsCreated : Nat
deriving DecidableEq

/-- VideoProcessor.processFrames from src/unnamed/part_000 (lines 82-120):
an empty frame list returns two empty sequences before any GPU context is
constructed; otherwise one ChromaKeyProcessor is created and every frame is
pushed through processFrameAll (mask pass and black-background pass) in
order.  A frame is modelled as the list of its normalized RGB pixel samples. -/
def processFrames (frames : List (List Vec3)) (colorType : ColorType) :
    ProcessFramesResult :=
  if frames.length = 0 then ⟨[], [], 0⟩
  else
    let settings := settingsFor colorType
    ⟨frames.map (fun f => f.map (fun p => maskShaderPixel p settings)),
     frames.map (fun f => f.map (fun p => blackBgShaderPixel p settings)),
     1⟩

/-- One frame submission of the drawNextFrame loop in
VideoProcessor.createVideo: the frame index, the scheduled target time
(the value of nextFrameTime when the frame is drawn), and the computed
sleep before the following frame. -/
structure Emission where
  idx : Nat
  target : ℚ
  delay : ℚ
deriving DecidableEq

/-- The drawNextFrame recursion of VideoProcessor.createVideo (lines
172-209 of src/unnamed/part_000).  Arguments: frames remaining, current
frameIndex, current nextFrameTime.  Each step draws the frame, increments
frameIndex, advances nextFrameTime by frameInterval, and sleeps
max(0, nextFrameTime - now); the now value observed after rendering frame k
is supplied by the environment function nows. -/
def drawLoop (frameInterval : ℚ) (nows : Nat → ℚ) :
    Nat → Nat → ℚ → List Emission
  | 0, _, _ => []
  | n + 1, frameIndex, nextFrameTime =>
    ⟨frameIndex, nextFrameTime,
      max 0 (nextFrameTime + frameInterval - nows frameIndex)⟩ ::
      drawLoop frameInterval nows n (frameIndex + 1)
        (nextFrameTime + frameInterval)

/-- The capture trace produced by VideoProcessor.createVideo: the ordered
frame emissions and the settle delay before mediaRecorder.stop(). -/
structure ReassemblyResult where
  emissions : List Emission
  settleDelay : ℚ
deriving DecidableEq

/-- Failure modes of VideoProcessor.createVideo: the thrown
Error(No frames to process) on empty input, and the MediaRecorder error. -/
inductive CreateVideoError
  | noFrames
  | recorderError
deriving DecidableEq

/-- VideoProcessor.createVideo from src/unnamed/part_000 (lines 126-211):
throws on an empty frame list before any capture is set up; otherwise runs
the drawNextFrame loop from frameIndex 0 and nextFrameTime = startTime with
frameInterval = 1000/fps, then stops after a 100 ms settle delay. -/
def createVideo (frames : List (List Vec4)) (fps : ℚ) (startTime : ℚ)
    (nows : Nat → ℚ) : Except CreateVideoError ReassemblyResult :=
  if frames.length = 0 then .error .noFrames
  else .ok ⟨drawLoop (1000 / fps) nows frames.length 0 startTime, 100⟩

/-- Result of VideoProcessor.extractFrames: the captured (seek time, frame)
pairs and the reported progress pairs. -/
structure ExtractResult where
  frames : List (ℚ × List Vec3)
  progress : List (Nat × Nat)
deriving DecidableEq

/-- VideoProcessor.extractFrames from src/unnamed/part_000 (lines 31-63).
The video source is modelled by its duration (none when unknown: a NaN
duration makes the for-loop bound NaN so the body never runs) and by the
function source giving the displayed image at each seek time.  Frame i is
captured after seeking to i * (1/fps), and progress (i+1, totalFrames) is
reported after each capture. -/
def extractFrames (duration : Option ℚ) (fps : ℚ)
    (source : ℚ → List Vec3) : ExtractResult :=
  let totalFrames : Nat :=
    match duration with
    | none => 0
    | some d => (⌊d * fps⌋).toNat
  let frameInterval := 1 / fps
  ⟨(List.range totalFrames).map
      (fun (i : ℕ) => ((i : ℚ) * frameInterval, source ((i : ℚ) * frameInterval))),
   (List.range totalFrames).map (fun i => (i + 1, totalFrames))⟩

/-- Valid Key Settings, from section 3 of the specification. -/
def ValidSettings (s : ChromaKeySettings) : Prop :=
  0 ≤ s.hueTarget ∧ s.hueTarget < 360 ∧
  0 < s.hueRange ∧ s.hueRange ≤ 180 ∧
  0 ≤ s.satMin ∧ s.satMin ≤ 1 ∧
  0 ≤ s.valMin ∧ s.valMin ≤ s.valMax ∧ s.valMax ≤ 1 ∧
  0 ≤ s.smoothness ∧ s.smoothness ≤ 1 ∧
  0 ≤ s.spillSuppression ∧ s.spillSuppression ≤ 1

instance (s : ChromaKeySettings) : Decidable (ValidSettings s) := by
  unfold ValidSettings
  infer_instance

/-- Reference per-pixel alpha, written from the wording of the specification:
hueDiff is the circular hue distance (minimum of the direct and the wrapped
distance), hueMatch falls off between hueRange/2 and hueRange, satMatch rises
between satMin/2 and satMin, valMatch is a hard 1-iff gate, dominance compares
the key channel (green when hueTarget < 180, blue otherwise) with the maximum
of the other two, and alpha inverts the smoothstep of keyStrength around 0.3. -/
def alphaRef (c : Vec3) (s : ChromaKeySettings) : ℚ :=
  let hsv := rgb2hsv c
  let hue := hsv.x * 360
  let sat := hsv.y
  let val := hsv.z
  let hueDiff := min |hue - s.hueTarget| (360 - |hue - s.hueTarget|)
  let hueMatch := 1 - smoothstepQ (s.hueRange / 2) s.hueRange hueDiff
  let satMatch := smoothstepQ (s.satMin / 2) s.satMin sat
  let valMatch : ℚ := if s.valMin ≤ val ∧ val ≤ s.valMax then 1 else 0
  let dominance :=
    if s.hueTarget < 180 then smoothstepQ 0 (1/10) (c.y - max c.x c.z)
    else smoothstepQ 0 (1/10) (c.z - max c.x c.y)
  let keyStrength := hueMatch * satMatch * valMatch * dominance
  1 - smoothstepQ (3/10 - s.smoothness) (3/10 + s.smoothness) keyStrength

/-- The composite-pass output exactly as the claim about spill suppression
words it: spillStrength = spillSuppression * (1 - alpha * 0.5), excess is the
positive part of (dominant key channel - average of the other two), the
despilled color subtracts excess * spillStrength from the dominant channel
and adds a fraction 0.2 of the excess to each of the other two channels, and
the final color is despilled * alpha over black. -/
def compositeRefClaim (c : Vec3) (s : ChromaKeySettings) : Vec4 :=
  let alpha := shaderAlpha c s
  let spillStrength := s.spillSuppression * (1 - alpha * (1/2))
  let despilled : Vec3 :=
    if s.hueTarget < 180 then
      let avg := (c.x + c.z) / 2
      let excess := max 0 (c.y - avg)
      ⟨c.x + (1/5) * excess, c.y - excess * spillStrength, c.z + (1/5) * excess⟩
    else
      let avg := (c.x + c.y) / 2
      let excess := max 0 (c.z - avg)
      ⟨c.x + (1/5) * excess, c.y + (1/5) * excess, c.z - excess * spillStrength⟩
  ⟨despilled.x * alpha, despilled.y * alpha, despilled.z * alpha, 1⟩

/-- The composite-pass output as the amended claim words it: as in
compositeRefClaim, except that each of the two receiving channels gains a
fraction 0.2 of excess * spillStrength (0.2 of the amount governed by the
suppression strength, not 0.2 of the raw excess) and is clamped at 1. -/
def compositeRefAmended (c : Vec3) (s : ChromaKeySettings) : Vec4 :=
  let alpha := shaderAlpha c s
  let spillStrength := s.spillSuppression * (1 - alpha / 2)
  let despilled : Vec3 :=
    if s.hueTarget < 180 then
      let avg := (c.x + c.z) / 2
      let excess := max 0 (c.y - avg)
      ⟨min 1 (c.x + (1/5) * (excess * spillStrength)),
       c.y - excess * spillStrength,
       min 1 (c.z + (1/5) * (excess * spillStrength))⟩
    else
      let avg := (c.x + c.y) / 2
      let excess := max 0 (c.z - avg)
      ⟨min 1 (c.x + (1/5) * (excess * spillStrength)),
       min 1 (c.y + (1/5) * (excess * spillStrength)),
       c.z - excess * spillStrength⟩
  ⟨alpha * despilled.x, alpha * despilled.y, alpha * despilled.z, 1⟩

/-- Modelled from the spec (section 6 input interface): a solid frame of the
color with the given HSV coordinates, via the standard HSV to RGB conversion
(hue in degrees, saturation and value in [0,1]). -/
def hsvToRgb (h s v : ℚ) : Vec3 :=
  let c := v * s
  let hm := h / 60 - 2 * (⌊h / 120⌋ : ℚ)
  let x := c * (1 - |hm - 1|)
  let m := v - c
  if h < 60 then ⟨c + m, x + m, m⟩
  else if h < 120 then ⟨x + m, c + m, m⟩
  else if h < 180 then ⟨m, c + m, x + m⟩
  else if h < 240 then ⟨m, x + m, c + m⟩
  else if h < 300 then ⟨x + m, m, c + m⟩
  else ⟨c + m, m, x + m⟩

section Helpers

/-- Extensionality for Vec3. -/
lemma vec3ext {a b : Vec3} (hx : a.x = b.x) (hy : a.y = b.y) (hz : a.z = b.z) :
    a = b := by
  cases a; cases b; simp_all

/-- Extensionality for Vec4. -/
lemma vec4ext {a b : Vec4} (hx : a.x = b.x) (hy : a.y = b.y) (hz : a.z = b.z)
    (hw : a.w = b.w) : a = b := by
  cases a; cases b; simp_all

lemma mixQ_zero (a b : ℚ) : mixQ a b 0 = a := by unfold mixQ; ring

lemma mixQ_one (a b : ℚ) : mixQ a b 1 = b := by unfold mixQ; ring

lemma stepQ_of_lt {edge x : ℚ} (h : x < edge) : stepQ edge x = 0 := if_pos h

lemma stepQ_of_le {edge x : ℚ} (h : edge ≤ x) : stepQ edge x = 1 :=
  if_neg (not_lt.mpr h)

/-- smoothstep is 0 when the normalized parameter is at most 0. -/
lemma smoothstepQ_eq_zero {edge0 edge1 x : ℚ}
    (h : (x - edge0) / (edge1 - edge0) ≤ 0) : smoothstepQ edge0 edge1 x = 0 := by
  unfold smoothstepQ clampQ
  rw [max_eq_right h, min_eq_left (by norm_num : (0:ℚ) ≤ 1)]
  ring

/-- smoothstep is 1 when the normalized parameter is at least 1. -/
lemma smoothstepQ_eq_one {edge0 edge1 x : ℚ}
    (h : 1 ≤ (x - edge0) / (edge1 - edge0)) : smoothstepQ edge0 edge1 x = 1 := by
  unfold smoothstepQ clampQ
  rw [max_eq_left (le_trans (by norm_num) h), min_eq_right h]
  ring

/-- The positive epsilon fact used throughout. -/
lemma epsQ_pos : (0:ℚ) < epsQ := by norm_num [epsQ]

/-- The shifted-ratio bound behind the hue range of rgb2hsv. -/
lemma hue_ratio_bound {n d : ℚ} (hd : 0 ≤ d) (hn : |n| ≤ d) :
    |n / (6 * d + epsQ)| ≤ 1/6 := by
  have hden : (0:ℚ) < 6 * d + epsQ := by
    have := epsQ_pos
    linarith
  rw [abs_div, abs_of_pos hden, div_le_iff₀ hden]
  have := epsQ_pos
  linarith

/-- The hue component produced by rgb2hsv is nonnegative. -/
lemma rgb2hsv_hue_nonneg (c : Vec3) : 0 ≤ (rgb2hsv c).x := by
  simp only [rgb2hsv]
  exact abs_nonneg _

/-- The hue component produced by rgb2hsv is at most 1 (so hue * 360 stays
in [0, 360] and the wraparound computation below is the circular distance). -/
lemma rgb2hsv_hue_le_one (c : Vec3) : (rgb2hsv c).x ≤ 1 := by
  simp only [rgb2hsv]
  rcases lt_or_le c.y c.z with h1 | h1
  · rw [stepQ_of_lt h1]
    simp only [mixQ_zero]
    rcases lt_or_le c.x c.z with h2 | h2
    · rw [stepQ_of_lt h2]
      simp only [mixQ_zero]
      have hd : 0 ≤ c.z - min c.x c.y := by
        rcases min_cases c.x c.y with ⟨hm, _⟩ | ⟨hm, _⟩ <;> rw [hm] <;> linarith
      have hn : |c.x - c.y| ≤ c.z - min c.x c.y := by
        rcases min_cases c.x c.y with ⟨hm, hle⟩ | ⟨hm, hle⟩ <;> rw [hm, abs_le] <;>
          constructor <;> linarith
      have hb := abs_le.mp (hue_ratio_bound hd hn)
      rw [abs_le]
      constructor <;> linarith [hb.1, hb.2]
    · rw [stepQ_of_le h2]
      simp only [mixQ_one]
      have hd : 0 ≤ c.x - min c.z c.y := by
        rcases min_cases c.z c.y with ⟨hm, _⟩ | ⟨hm, _⟩ <;> rw [hm] <;> linarith
      have hn0 : 0 ≤ c.z - c.y := by linarith
      have hn : |c.z - c.y| ≤ c.x - min c.z c.y := by
        rcases min_cases c.z c.y with ⟨hm, hle⟩ | ⟨hm, hle⟩ <;> rw [hm, abs_le] <;>
          constructor <;> linarith
      have hb := abs_le.mp (hue_ratio_bound hd hn)
      have hr0 : 0 ≤ (c.z - c.y) / (6 * (c.x - min c.z c.y) + epsQ) := by
        apply div_nonneg hn0
        have := epsQ_pos
        linarith
      rw [abs_le]
      constructor <;> linarith [hb.1, hb.2]
  · rw [stepQ_of_le h1]
    simp only [mixQ_one]
    rcases lt_or_le c.x c.y with h2 | h2
    · rw [stepQ_of_lt h2]
      simp only [mixQ_zero]
      have hd : 0 ≤ c.y - min c.x c.z := by
        rcases min_cases c.x c.z with ⟨hm, _⟩ | ⟨hm, _⟩ <;> rw [hm] <;> linarith
      have hn : |c.x - c.z| ≤ c.y - min c.x c.z := by
        rcases min_cases c.x c.z with ⟨hm, hle⟩ | ⟨hm, hle⟩ <;> rw [hm, abs_le] <;>
          constructor <;> linarith
      have hb := abs_le.mp (hue_ratio_bound hd hn)
      rw [abs_le]
      constructor <;> linarith [hb.1, hb.2]
    · rw [stepQ_of_le h2]
      simp only [mixQ_one]
      have hd : 0 ≤ c.x - min c.y c.z := by
        rcases min_cases c.y c.z with ⟨hm, _⟩ | ⟨hm, _⟩ <;> rw [hm] <;> linarith
      have hn : |c.y - c.z| ≤ c.x - min c.y c.z := by
        rcases min_cases c.y c.z with ⟨hm, hle⟩ | ⟨hm, hle⟩ <;> rw [hm, abs_le] <;>
          constructor <;> linarith
      have hb := abs_le.mp (hue_ratio_bound hd hn)
      rw [abs_le]
      constructor <;> linarith [hb.1, hb.2]

/-- The wraparound branch of the shaders computes the circular distance. -/
lemma wrap_eq_min (u : ℚ) : (if u > 180 then 360 - u else u) = min u (360 - u) := by
  rcases le_or_lt u 180 with h1 | h1
  · rw [if_neg (not_lt.mpr h1), min_eq_left (by linarith)]
  · rw [if_pos h1, min_eq_right (by linarith)]

/-- The product of the two value steps is the hard value gate. -/
lemma stepQ_mul_stepQ (a b x : ℚ) :
    stepQ a x * stepQ x b = if a ≤ x ∧ x ≤ b then 1 else 0 := by
  unfold stepQ
  rcases lt_or_le x a with h1 | h1 <;> rcases lt_or_le b x with h2 | h2
  · rw [if_pos h1, if_pos h2, if_neg (by rintro ⟨ha, hb⟩; linarith)]
    ring
  · rw [if_pos h1, if_neg (not_lt.mpr h2), if_neg (by rintro ⟨ha, hb⟩; linarith)]
    ring
  · rw [if_neg (not_lt.mpr h1), if_pos h2, if_neg (by rintro ⟨ha, hb⟩; linarith)]
    ring
  · rw [if_neg (not_lt.mpr h1), if_neg (not_lt.mpr h2), if_pos ⟨h1, h2⟩]
    ring

end Helpers

section ConcreteValues

/-- HSV of the pure-green texture sample (0, 1, 0). -/
lemma rgb2hsv_pureGreen :
    rgb2hsv ⟨0, 1, 0⟩ = ⟨1/3, 10000000000/10000000001, 1⟩ :=
  vec3ext (by norm_num [rgb2hsv, stepQ, mixQ, epsQ])
    (by norm_num [rgb2hsv, stepQ, mixQ, epsQ])
    (by norm_num [rgb2hsv, stepQ, mixQ, epsQ])

/-- Pure green has value 1, above the valMax gate 0.98, so the green preset
classifies it as subject: alpha = 1. -/
lemma shaderAlpha_pureGreen :
    shaderAlpha ⟨0, 1, 0⟩ GREEN_SCREEN_SETTINGS = 1 := by
  rw [shaderAlpha, rgb2hsv_pureGreen]
  norm_num [stepQ, smoothstepQ, clampQ, GREEN_SCREEN_SETTINGS]

/-- HSV of the slightly darker green sample (0, 249/255, 0). -/
lemma rgb2hsv_green249 :
    rgb2hsv ⟨0, 249/255, 0⟩ = ⟨1/3, 166000000000/166000000017, 83/85⟩ :=
  vec3ext (by norm_num [rgb2hsv, stepQ, mixQ, epsQ])
    (by norm_num [rgb2hsv, stepQ, mixQ, epsQ])
    (by norm_num [rgb2hsv, stepQ, mixQ, epsQ])

/-- Green with value 249/255 (within the value gate) is fully keyed. -/
lemma shaderAlpha_green249 :
    shaderAlpha ⟨0, 249/255, 0⟩ GREEN_SCREEN_SETTINGS = 0 := by
  rw [shaderAlpha, rgb2hsv_green249]
  norm_num [stepQ, smoothstepQ, clampQ, GREEN_SCREEN_SETTINGS]

/-- Mask output at pure green under the green preset is white, not black. -/
lemma maskShaderPixel_pureGreen :
    maskShaderPixel ⟨0, 1, 0⟩ GREEN_SCREEN_SETTINGS = ⟨1, 1, 1, 1⟩ := by
  simp only [maskShaderPixel, shaderAlpha_pureGreen]

/-- Composite output at pure green under the green preset: alpha is 1 and
spill suppression recolors the pixel to (0.07, 0.65, 0.07). -/
lemma blackBgShaderPixel_pureGreen :
    blackBgShaderPixel ⟨0, 1, 0⟩ GREEN_SCREEN_SETTINGS =
      ⟨7/100, 65/100, 7/100, 1⟩ := by
  simp only [blackBgShaderPixel, shaderAlpha_pureGreen]
  norm_num [suppressSpill, GREEN_SCREEN_SETTINGS]

/-- Mask output at green 249/255 under the green preset is black. -/
lemma maskShaderPixel_green249 :
    maskShaderPixel ⟨0, 249/255, 0⟩ GREEN_SCREEN_SETTINGS = ⟨0, 0, 0, 1⟩ := by
  simp only [maskShaderPixel, shaderAlpha_green249]

/-- Composite output at green 249/255 under the green preset is black. -/
lemma blackBgShaderPixel_green249 :
    blackBgShaderPixel ⟨0, 249/255, 0⟩ GREEN_SCREEN_SETTINGS = ⟨0, 0, 0, 1⟩ := by
  simp only [blackBgShaderPixel, shaderAlpha_green249]
  exact vec4ext (by ring) (by ring) (by ring) rfl

end ConcreteValues

/-- C1 counterexample: running ten frames of pure green (0,255,0) through the
frame processor with the green preset does NOT give all-black mask and
composite sequences.  Pure green has HSV value 1 > valMax = 0.98, so the
valMatch gate rejects it: the mask is white and the composite is the
despilled green, not black. -/
theorem C1_counterexample :
    ¬ ((∀ f ∈ (processFrames (List.replicate 10 (List.replicate 4 ⟨0, 1, 0⟩))
          ColorType.green).mask, ∀ p ∈ f, p = (⟨0, 0, 0, 1⟩ : Vec4)) ∧
       (∀ f ∈ (processFrames (List.replicate 10 (List.replicate 4 ⟨0, 1, 0⟩))
          ColorType.green).black, ∀ p ∈ f, p = (⟨0, 0, 0, 1⟩ : Vec4))) := by
  rintro ⟨hm, _⟩
  have hmask : (processFrames (List.replicate 10 (List.replicate 4 ⟨0, 1, 0⟩))
      ColorType.green).mask =
      List.replicate 10 (List.replicate 4 (maskShaderPixel ⟨0, 1, 0⟩ GREEN_SCREEN_SETTINGS)) := by
    simp [processFrames, settingsFor, List.map_replicate]
  have hf : List.replicate 4 (maskShaderPixel ⟨0, 1, 0⟩ GREEN_SCREEN_SETTINGS) ∈
      (processFrames (List.replicate 10 (List.replicate 4 ⟨0, 1, 0⟩))
        ColorType.green).mask := by
    rw [hmask]
    exact List.mem_replicate.mpr ⟨by norm_num, rfl⟩
  have hp := hm _ hf (maskShaderPixel ⟨0, 1, 0⟩ GREEN_SCREEN_SETTINGS)
    (List.mem_replicate.mpr ⟨by norm_num, rfl⟩)
  rw [maskShaderPixel_pureGreen] at hp
  have := congrArg Vec4.x hp
  norm_num at this

/-- C1 amended: with the frame color inside the value gate - green (0,249,0),
value 249/255 = 0.976 < valMax = 0.98 - ten frames through the green preset
give ten all-black mask frames and ten all-black composite frames. -/
theorem C1_amended :
    (processFrames (List.replicate 10 (List.replicate 4 ⟨0, 249/255, 0⟩))
        ColorType.green).mask =
      List.replicate 10 (List.replicate 4 (⟨0, 0, 0, 1⟩ : Vec4)) ∧
    (processFrames (List.replicate 10 (List.replicate 4 ⟨0, 249/255, 0⟩))
        ColorType.green).black =
      List.replicate 10 (List.replicate 4 (⟨0, 0, 0, 1⟩ : Vec4)) := by
  constructor <;>
    simp [processFrames, settingsFor, List.map_replicate,
      maskShaderPixel_green249, blackBgShaderPixel_green249]

/-- C3 counterexample: at pure green under the green preset, the composite
pass output differs from the claim-side formula that redistributes a fraction
0.2 of the raw excess without the spillStrength factor and without clamping:
the code yields (0.07, 0.65, 0.07, 1), the claim formula (0.2, 0.65, 0.2, 1). -/
theorem C3_counterexample :
    blackBgShaderPixel ⟨0, 1, 0⟩ GREEN_SCREEN_SETTINGS ≠
      compositeRefClaim ⟨0, 1, 0⟩ GREEN_SCREEN_SETTINGS := by
  intro h
  have hclaim : compositeRefClaim ⟨0, 1, 0⟩ GREEN_SCREEN_SETTINGS =
      ⟨1/5, 65/100, 1/5, 1⟩ := by
    simp only [compositeRefClaim, shaderAlpha_pureGreen]
    norm_num [GREEN_SCREEN_SETTINGS]
  rw [blackBgShaderPixel_pureGreen, hclaim] at h
  have := congrArg Vec4.x h
  norm_num at this

/-- C3 amended: the composite-pass output equals the reference formula in
which each receiving channel gains a fraction 0.2 of excess * spillStrength
and is clamped at 1, the dominant channel loses excess * spillStrength, and
the result is multiplied by alpha (composited over black). -/
theorem C3_amended_composite_formula (c : Vec3) (s : ChromaKeySettings) :
    blackBgShaderPixel c s = compositeRefAmended c s := by
  have hd : (decide (s.hueTarget < 180) = true) = (s.hueTarget < 180) := by
    simp
  rcases lt_or_le s.hueTarget 180 with h | h
  · simp only [blackBgShaderPixel, compositeRefAmended, suppressSpill, hd,
      if_pos h]
    exact vec4ext (by ring_nf) (by ring_nf) (by ring_nf) rfl
  · simp only [blackBgShaderPixel, compositeRefAmended, suppressSpill, hd,
      if_neg (not_lt.mpr h)]
    exact vec4ext (by ring_nf) (by ring_nf) (by ring_nf) rfl

/-- C4: the mask pass is grayscale and opaque - its red, green and blue
components all equal the computed alpha (also after byte quantization), and
its alpha component is fully opaque (byte 255). -/
theorem C4_mask_grayscale (c : Vec3) (s : ChromaKeySettings) :
    (maskShaderPixel c s).x = shaderAlpha c s ∧
    (maskShaderPixel c s).y = shaderAlpha c s ∧
    (maskShaderPixel c s).z = shaderAlpha c s ∧
    (maskShaderPixel c s).w = 1 ∧
    toByte (maskShaderPixel c s).x = toByte (maskShaderPixel c s).y ∧
    toByte (maskShaderPixel c s).y = toByte (maskShaderPixel c s).z ∧
    toByte (maskShaderPixel c s).w = 255 := by
  refine ⟨rfl, rfl, rfl, rfl, rfl, rfl, ?_⟩
  show toByte 1 = 255
  norm_num [toByte, clampQ]

/-- C6: the boundary behavior on empty input differs by stage - the frame
processor returns two empty sequences and constructs no GPU context, while
the reassembler fails with the empty-input error and produces no trace. -/
theorem C6_empty_input_boundaries :
    (∀ colorType, processFrames [] colorType = ⟨[], [], 0⟩) ∧
    (∀ (fps startTime : ℚ) (nows : Nat → ℚ),
      createVideo [] fps startTime nows = .error .noFrames) :=
  ⟨fun _ => rfl, fun _ _ _ => rfl⟩

/-- C2: for every RGB pixel and every valid Key Settings value the per-pixel
alpha computed by the shader programs equals the reference definition from
the specification (circular hue distance, smooth hue/saturation matches,
hard value gate, key-channel dominance, smoothstepped key strength).  Both
fragment shaders share this computation verbatim: maskShaderPixel and
blackBgShaderPixel are both defined through shaderAlpha, and the mask pixel
red channel below witnesses it.  The first two conjuncts record that the
shader hue (in degrees) lies in [0, 360], which is what makes the
wraparound branch the circular distance. -/
theorem C2_alpha_matches_reference (c : Vec3) (s : ChromaKeySettings)
    (hs : ValidSettings s) :
    0 ≤ (rgb2hsv c).x * 360 ∧ (rgb2hsv c).x * 360 ≤ 360 ∧
    shaderAlpha c s = alphaRef c s ∧
    (maskShaderPixel c s).x = alphaRef c s := by
  have hh0 := rgb2hsv_hue_nonneg c
  have hh1 := rgb2hsv_hue_le_one c
  have key : shaderAlpha c s = alphaRef c s := by
    simp only [shaderAlpha, alphaRef]
    rw [wrap_eq_min, stepQ_mul_stepQ]
    rw [show s.hueRange * (1/2) = s.hueRange / 2 from by ring,
        show s.satMin * (1/2) = s.satMin / 2 from by ring]
  exact ⟨by positivity, by linarith, key, key⟩

/-- Witness for C2 at the pure-green pixel under the green preset. -/
theorem C2_witness :
    ValidSettings GREEN_SCREEN_SETTINGS ∧
    shaderAlpha ⟨0, 1, 0⟩ GREEN_SCREEN_SETTINGS =
      alphaRef ⟨0, 1, 0⟩ GREEN_SCREEN_SETTINGS := by
  have hv : ValidSettings GREEN_SCREEN_SETTINGS := by
    norm_num [ValidSettings, GREEN_SCREEN_SETTINGS]
  exact ⟨hv, (C2_alpha_matches_reference ⟨0, 1, 0⟩ GREEN_SCREEN_SETTINGS hv).2.2.1⟩

/-- C5: the frame processor returns mask and composite sequences whose
lengths equal the input length, and element i of each output is produced
from input frame i by the corresponding shader pass. -/
theorem C5_processFrames_aligned (frames : List (List Vec3))
    (colorType : ColorType) :
    (processFrames frames colorType).mask.length = frames.length ∧
    (processFrames frames colorType).black.length = frames.length ∧
    ∀ i, i < frames.length →
      (processFrames frames colorType).mask[i]? =
        some (frames[i]!.map (fun p => maskShaderPixel p (settingsFor colorType))) ∧
      (processFrames frames colorType).black[i]? =
        some (frames[i]!.map (fun p => blackBgShaderPixel p (settingsFor colorType))) := by
  by_cases hf : frames.length = 0
  · have hnil : frames = [] := List.length_eq_zero.mp hf
    subst hnil
    refine ⟨rfl, rfl, ?_⟩
    intro i hi
    simp at hi
  · simp only [processFrames, if_neg hf]
    refine ⟨List.length_map _ _, List.length_map _ _, ?_⟩
    intro i hi
    have hget : frames[i]! = frames[i] := getElem!_pos frames i hi
    constructor <;>
      rw [List.getElem?_map, List.getElem?_eq_getElem hi, Option.map_some', hget]

/-- Witness for C5 on a one-frame input. -/
theorem C5_witness :
    (0:Nat) < ([[⟨0, 0, 0⟩]] : List (List Vec3)).length ∧
    (processFrames [[⟨0, 0, 0⟩]] ColorType.green).mask[0]? =
      some ([(⟨0, 0, 0⟩ : Vec3)].map
        (fun p => maskShaderPixel p (settingsFor ColorType.green))) := by
  refine ⟨by norm_num, ?_⟩
  have h := (C5_processFrames_aligned [[⟨0, 0, 0⟩]] ColorType.green).2.2 0
    (by norm_num)
  exact h.1

section OrthogonalHue

/-- HSV to RGB at hue 210 (the green target 120 plus 90 degrees). -/
lemma hsvToRgb_hue210 (sa v : ℚ) :
    hsvToRgb 210 sa v = ⟨v - v * sa, v - v * sa * (1/2), v⟩ := by
  simp only [hsvToRgb]
  rw [if_neg (by norm_num), if_neg (by norm_num), if_neg (by norm_num),
    if_pos (by norm_num : (210:ℚ) < 240)]
  have hfl : (⌊(210:ℚ) / 120⌋ : ℤ) = 1 := by norm_num
  rw [hfl]
  have habs : |(210:ℚ) / 60 - 2 * ((1:ℤ):ℚ) - 1| = 1/2 := by norm_num
  rw [habs]
  exact vec3ext (by ring) (by ring) (by ring)

/-- HSV to RGB at hue 330 (the blue target 240 plus 90 degrees). -/
lemma hsvToRgb_hue330 (sa v : ℚ) :
    hsvToRgb 330 sa v = ⟨v, v - v * sa, v - v * sa * (1/2)⟩ := by
  simp only [hsvToRgb]
  rw [if_neg (by norm_num), if_neg (by norm_num), if_neg (by norm_num),
    if_neg (by norm_num), if_neg (by norm_num)]
  have hfl : (⌊(330:ℚ) / 120⌋ : ℤ) = 2 := by norm_num
  rw [hfl]
  have habs : |(330:ℚ) / 60 - 2 * ((2:ℤ):ℚ) - 1| = 1/2 := by norm_num
  rw [habs]
  exact vec3ext (by ring) (by ring) (by ring)

/-- Under the green preset, a pixel whose green channel does not dominate
has zero dominance, hence zero key strength and alpha 1. -/
lemma shaderAlpha_green_dom (c : Vec3) (h : c.y - max c.x c.z ≤ 0) :
    shaderAlpha c GREEN_SCREEN_SETTINGS = 1 := by
  simp only [shaderAlpha, GREEN_SCREEN_SETTINGS]
  rw [if_pos (by norm_num : (120:ℚ) < 180)]
  have hdom : smoothstepQ 0 (1/10) (c.y - max c.x c.z) = 0 := by
    apply smoothstepQ_eq_zero
    have hr : (c.y - max c.x c.z - 0) / ((1:ℚ)/10 - 0) =
        10 * (c.y - max c.x c.z) := by ring
    rw [hr]
    linarith
  rw [hdom, mul_zero]
  have hz : smoothstepQ (3/10 - 12/100) (3/10 + 12/100) 0 = 0 := by
    apply smoothstepQ_eq_zero
    norm_num
  rw [hz]
  norm_num

/-- Under the blue preset, a pixel whose blue channel does not dominate has
zero dominance, hence zero key strength and alpha 1. -/
lemma shaderAlpha_blue_dom (c : Vec3) (h : c.z - max c.x c.y ≤ 0) :
    shaderAlpha c BLUE_SCREEN_SETTINGS = 1 := by
  simp only [shaderAlpha, BLUE_SCREEN_SETTINGS]
  rw [if_neg (by norm_num : ¬((240:ℚ) < 180))]
  have hdom : smoothstepQ 0 (1/10) (c.z - max c.x c.y) = 0 := by
    apply smoothstepQ_eq_zero
    have hr : (c.z - max c.x c.y - 0) / ((1:ℚ)/10 - 0) =
        10 * (c.z - max c.x c.y) := by ring
    rw [hr]
    linarith
  rw [hdom, mul_zero]
  have hz : smoothstepQ (3/10 - 12/100) (3/10 + 12/100) 0 = 0 := by
    apply smoothstepQ_eq_zero
    norm_num
  rw [hz]
  norm_num

/-- Spill suppression is the identity in green mode when the green channel
does not exceed the average of the other two (excess = 0). -/
lemma suppressSpill_green_id (c : Vec3) (amt : ℚ)
    (h : c.y ≤ (c.x + c.z) * (1/2)) (hx : c.x ≤ 1) (hz : c.z ≤ 1) :
    suppressSpill c amt true = c := by
  simp only [suppressSpill]
  rw [if_pos trivial, max_eq_left (by linarith)]
  refine vec3ext ?_ ?_ ?_
  · show min 1 (c.x + 0 * amt * (1/5)) = c.x
    rw [show c.x + 0 * amt * (1/5) = c.x from by ring]
    exact min_eq_right hx
  · show c.y - 0 * amt = c.y
    ring
  · show min 1 (c.z + 0 * amt * (1/5)) = c.z
    rw [show c.z + 0 * amt * (1/5) = c.z from by ring]
    exact min_eq_right hz

/-- Spill suppression is the identity in blue mode when the blue channel
does not exceed the average of the other two (excess = 0). -/
lemma suppressSpill_blue_id (c : Vec3) (amt : ℚ)
    (h : c.z ≤ (c.x + c.y) * (1/2)) (hx : c.x ≤ 1) (hy : c.y ≤ 1) :
    suppressSpill c amt false = c := by
  simp only [suppressSpill]
  rw [if_neg (by simp), max_eq_left (by linarith)]
  refine vec3ext ?_ ?_ ?_
  · show min 1 (c.x + 0 * amt * (1/5)) = c.x
    rw [show c.x + 0 * amt * (1/5) = c.x from by ring]
    exact min_eq_right hx
  · show min 1 (c.y + 0 * amt * (1/5)) = c.y
    rw [show c.y + 0 * amt * (1/5) = c.y from by ring]
    exact min_eq_right hy
  · show c.z - 0 * amt = c.z
    ring

end OrthogonalHue

/-- C7: a solid frame of any color whose hue is hueTarget + 90 degrees
(hue 210 under the green preset, hue 330 under the blue preset), at any
saturation and value in [0,1], gets a pure white mask (alpha = 1) and a
composite output equal to the original color: the key channel never exceeds
the average of the other two at this hue, so the excess is zero and spill
suppression leaves the color intact. -/
theorem C7_orthogonal_hue_passthrough (sa v : ℚ)
    (hs0 : 0 ≤ sa) (hs1 : sa ≤ 1) (hv0 : 0 ≤ v) (hv1 : v ≤ 1) :
    (maskShaderPixel (hsvToRgb (GREEN_SCREEN_SETTINGS.hueTarget + 90) sa v)
        GREEN_SCREEN_SETTINGS = ⟨1, 1, 1, 1⟩ ∧
      blackBgShaderPixel (hsvToRgb (GREEN_SCREEN_SETTINGS.hueTarget + 90) sa v)
        GREEN_SCREEN_SETTINGS =
        ⟨(hsvToRgb (GREEN_SCREEN_SETTINGS.hueTarget + 90) sa v).x,
         (hsvToRgb (GREEN_SCREEN_SETTINGS.hueTarget + 90) sa v).y,
         (hsvToRgb (GREEN_SCREEN_SETTINGS.hueTarget + 90) sa v).z, 1⟩) ∧
    (maskShaderPixel (hsvToRgb (BLUE_SCREEN_SETTINGS.hueTarget + 90) sa v)
        BLUE_SCREEN_SETTINGS = ⟨1, 1, 1, 1⟩ ∧
      blackBgShaderPixel (hsvToRgb (BLUE_SCREEN_SETTINGS.hueTarget + 90) sa v)
        BLUE_SCREEN_SETTINGS =
        ⟨(hsvToRgb (BLUE_SCREEN_SETTINGS.hueTarget + 90) sa v).x,
         (hsvToRgb (BLUE_SCREEN_SETTINGS.hueTarget + 90) sa v).y,
         (hsvToRgb (BLUE_SCREEN_SETTINGS.hueTarget + 90) sa v).z, 1⟩) := by
  have hvs : 0 ≤ v * sa := mul_nonneg hv0 hs0
  have hvs1 : v * sa ≤ 1 := mul_le_one₀ hv1 hs0 hs1
  have hg : GREEN_SCREEN_SETTINGS.hueTarget + 90 = (210:ℚ) := by
    norm_num [GREEN_SCREEN_SETTINGS]
  have hb : BLUE_SCREEN_SETTINGS.hueTarget + 90 = (330:ℚ) := by
    norm_num [BLUE_SCREEN_SETTINGS]
  constructor
  · rw [hg, hsvToRgb_hue210]
    have hdom : (⟨v - v * sa, v - v * sa * (1/2), v⟩ : Vec3).y -
        max (⟨v - v * sa, v - v * sa * (1/2), v⟩ : Vec3).x
          (⟨v - v * sa, v - v * sa * (1/2), v⟩ : Vec3).z ≤ 0 := by
      show v - v * sa * (1/2) - max (v - v * sa) v ≤ 0
      rw [max_eq_right (by linarith)]
      linarith
    have ha := shaderAlpha_green_dom _ hdom
    constructor
    · simp only [maskShaderPixel, ha]
    · simp only [blackBgShaderPixel, ha]
      have hgr : decide (GREEN_SCREEN_SETTINGS.hueTarget < 180) = true := by
        norm_num [GREEN_SCREEN_SETTINGS]
      rw [hgr]
      rw [suppressSpill_green_id _ _ (by show v - v * sa * (1/2) ≤ _; exact le_of_eq (by ring))
        (by show v - v * sa ≤ 1; linarith) (by show v ≤ 1; linarith)]
      exact vec4ext (by ring) (by ring) (by ring) rfl
  · rw [hb, hsvToRgb_hue330]
    have hdom : (⟨v, v - v * sa, v - v * sa * (1/2)⟩ : Vec3).z -
        max (⟨v, v - v * sa, v - v * sa * (1/2)⟩ : Vec3).x
          (⟨v, v - v * sa, v - v * sa * (1/2)⟩ : Vec3).y ≤ 0 := by
      show v - v * sa * (1/2) - max v (v - v * sa) ≤ 0
      rw [max_eq_left (by linarith)]
      linarith
    have ha := shaderAlpha_blue_dom _ hdom
    constructor
    · simp only [maskShaderPixel, ha]
    · simp only [blackBgShaderPixel, ha]
      have hbl : decide (BLUE_SCREEN_SETTINGS.hueTarget < 180) = false := by
        norm_num [BLUE_SCREEN_SETTINGS]
      rw [hbl]
      rw [suppressSpill_blue_id _ _ (by show v - v * sa * (1/2) ≤ _; exact le_of_eq (by ring))
        (by show v ≤ 1; linarith) (by show v - v * sa ≤ 1; linarith)]
      exact vec4ext (by ring) (by ring) (by ring) rfl

/-- Witness for C7 at saturation 1 and value 1/2. -/
theorem C7_witness :
    (0:ℚ) ≤ 1 ∧ (0:ℚ) ≤ 1/2 ∧ ((1:ℚ)/2) ≤ 1 ∧
    maskShaderPixel (hsvToRgb (GREEN_SCREEN_SETTINGS.hueTarget + 90) 1 (1/2))
      GREEN_SCREEN_SETTINGS = ⟨1, 1, 1, 1⟩ :=
  ⟨by norm_num, by norm_num, by norm_num,
    ((C7_orthogonal_hue_passthrough 1 (1/2) (by norm_num) (by norm_num)
      (by norm_num) (by norm_num)).1).1⟩

/-- Closed form of the drawNextFrame recursion: starting at frameIndex k and
schedule time t, the loop emits the remaining n frames at consecutive
indices, with target times spaced exactly frameInterval apart and sleeps
clamped at zero. -/
lemma drawLoop_eq (frameInterval : ℚ) (nows : Nat → ℚ) :
    ∀ (n k : Nat) (t : ℚ),
      drawLoop frameInterval nows n k t =
        (List.range n).map (fun i =>
          ⟨k + i, t + i * frameInterval,
           max 0 (t + (i + 1) * frameInterval - nows (k + i))⟩) := by
  intro n
  induction n with
  | zero => intro k t; simp [drawLoop]
  | succ m ih =>
    intro k t
    rw [drawLoop, ih (k + 1) (t + frameInterval), List.range_succ_eq_map]
    simp only [List.map_cons, List.map_map]
    congr 1
    · norm_num
    · apply List.map_congr_left
      intro i hi
      simp only [Function.comp_apply]
      have hidx : k + 1 + i = k + Nat.succ i := by omega
      rw [hidx]
      have h1 : t + frameInterval + (i:ℚ) * frameInterval =
          t + ((Nat.succ i : ℕ):ℚ) * frameInterval := by push_cast; ring
      have h2 : t + frameInterval + ((i:ℚ) + 1) * frameInterval =
          t + (((Nat.succ i : ℕ):ℚ) + 1) * frameInterval := by push_cast; ring
      rw [h1, h2]

/-- C8: during reassembly of N frames at rate fps, the target emission time
of frame k is startTime + k * (1000/fps); the computed sleep is never
negative; the frames are emitted exactly once each in index order 0..N-1;
the target schedule does not depend on the observed per-frame times; and the
capture trace of createVideo on a nonempty input is exactly this emission
list followed by the fixed 100 ms settle delay. -/
theorem C8_reassembly_schedule (N : Nat) (fps startTime : ℚ)
    (nows nows2 : Nat → ℚ) :
    (drawLoop (1000 / fps) nows N 0 startTime =
      (List.range N).map (fun k =>
        ⟨k, startTime + k * (1000 / fps),
         max 0 (startTime + (k + 1) * (1000 / fps) - nows k)⟩)) ∧
    ((drawLoop (1000 / fps) nows N 0 startTime).map Emission.idx =
      List.range N) ∧
    (∀ e ∈ drawLoop (1000 / fps) nows N 0 startTime, 0 ≤ e.delay) ∧
    ((drawLoop (1000 / fps) nows N 0 startTime).map Emission.target =
      (drawLoop (1000 / fps) nows2 N 0 startTime).map Emission.target) ∧
    (∀ frames : List (List Vec4), frames.length = N → frames.length ≠ 0 →
      createVideo frames fps startTime nows =
        .ok ⟨drawLoop (1000 / fps) nows N 0 startTime, 100⟩) := by
  have hmain : ∀ ns : Nat → ℚ, drawLoop (1000 / fps) ns N 0 startTime =
      (List.range N).map (fun k =>
        ⟨k, startTime + k * (1000 / fps),
         max 0 (startTime + (k + 1) * (1000 / fps) - ns k)⟩) := by
    intro ns
    rw [drawLoop_eq]
    apply List.map_congr_left
    intro i hi
    norm_num
  refine ⟨hmain nows, ?_, ?_, ?_, ?_⟩
  · rw [hmain nows, List.map_map]
    exact List.map_id _
  · intro e he
    rw [hmain nows] at he
    obtain ⟨i, hi, rfl⟩ := List.mem_map.mp he
    exact le_max_left _ _
  · rw [hmain nows, hmain nows2, List.map_map, List.map_map]
    rfl
  · intro frames hlen hne
    simp only [createVideo]
    rw [if_neg hne, hlen]

/-- Witness for C8 on a two-frame reassembly at 30 fps. -/
theorem C8_witness :
    ([[], []] : List (List Vec4)).length = 2 ∧
    ([[], []] : List (List Vec4)).length ≠ 0 ∧
    createVideo ([[], []] : List (List Vec4)) 30 0 (fun _ => 0) =
      .ok ⟨drawLoop (1000 / 30) (fun _ => 0) 2 0 0, 100⟩ :=
  ⟨rfl, by norm_num,
    (C8_reassembly_schedule 2 30 0 (fun _ => 0) (fun _ => 0)).2.2.2.2
      [[], []] rfl (by norm_num)⟩

/-- C9: frame extraction from a source of known duration d at rate fps
produces exactly floor(d * fps) frames; frame i is captured after seeking to
time i / fps; the seek times are strictly increasing; progress
(i+1, totalFrames) is reported after each frame; and a duration of 0 or an
unknown duration yields an empty sequence with no error. -/
theorem C9_extractFrames_schedule (d fps : ℚ) (source : ℚ → List Vec3)
    (hd : 0 ≤ d) (hfps : 0 < fps) :
    (((extractFrames (some d) fps source).frames.length : ℤ) = ⌊d * fps⌋) ∧
    ((extractFrames (some d) fps source).frames =
      (List.range (⌊d * fps⌋).toNat).map
        (fun (i : ℕ) => ((i : ℚ) / fps, source ((i : ℚ) / fps)))) ∧
    (((extractFrames (some d) fps source).frames.map Prod.fst).Pairwise (· < ·)) ∧
    ((extractFrames (some d) fps source).progress =
      (List.range (⌊d * fps⌋).toNat).map
        (fun i => (i + 1, (⌊d * fps⌋).toNat))) ∧
    (extractFrames (some 0) fps source = ⟨[], []⟩) ∧
    (extractFrames none fps source = ⟨[], []⟩) := by
  have hfl0 : (0:ℤ) ≤ ⌊d * fps⌋ := Int.floor_nonneg.mpr (mul_nonneg hd hfps.le)
  refine ⟨?_, ?_, ?_, rfl, ?_, rfl⟩
  · simp only [extractFrames, List.length_map, List.length_range]
    exact Int.toNat_of_nonneg hfl0
  · simp only [extractFrames]
    apply List.map_congr_left
    intro i hi
    rw [mul_one_div]
  · simp only [extractFrames, List.map_map]
    refine List.Pairwise.map _ ?_ (List.pairwise_lt_range _)
    intro a b hab
    show (a:ℚ) * (1/fps) < (b:ℚ) * (1/fps)
    apply mul_lt_mul_of_pos_right
    · exact_mod_cast hab
    · positivity
  · simp [extractFrames]

/-- Witness for C9: a source of duration 1/3 at 30 fps yields 10 frames. -/
theorem C9_witness :
    (0:ℚ) ≤ 1/3 ∧ (0:ℚ) < 30 ∧
    (((extractFrames (some (1/3)) 30 (fun _ => [])).frames.length : ℤ) =
      ⌊(1/3 : ℚ) * 30⌋) :=
  ⟨by norm_num, by norm_num,
    (C9_extractFrames_schedule (1/3) 30 (fun _ => []) (by norm_num)
      (by norm_num)).1⟩

/-- C10: for input channels and suppression amount in [0,1], spill
suppression keeps all three channels in [0,1]; the receiving channels are
clamped at 1, and when the key channel is at least the average of the other
two (in particular when it is dominant) it never drops below that average,
hence never below 0. -/
theorem C10_suppressSpill_bounds (c : Vec3) (amount : ℚ) (isGreen : Bool)
    (hx0 : 0 ≤ c.x) (hx1 : c.x ≤ 1) (hy0 : 0 ≤ c.y) (hy1 : c.y ≤ 1)
    (hz0 : 0 ≤ c.z) (hz1 : c.z ≤ 1) (ha0 : 0 ≤ amount) (ha1 : amount ≤ 1) :
    (0 ≤ (suppressSpill c amount isGreen).x ∧
      (suppressSpill c amount isGreen).x ≤ 1) ∧
    (0 ≤ (suppressSpill c amount isGreen).y ∧
      (suppressSpill c amount isGreen).y ≤ 1) ∧
    (0 ≤ (suppressSpill c amount isGreen).z ∧
      (suppressSpill c amount isGreen).z ≤ 1) ∧
    (isGreen = true → (c.x + c.z) * (1/2) ≤ c.y →
      (c.x + c.z) * (1/2) ≤ (suppressSpill c amount isGreen).y) ∧
    (isGreen = false → (c.x + c.y) * (1/2) ≤ c.z →
      (c.x + c.y) * (1/2) ≤ (suppressSpill c amount isGreen).z) := by
  cases isGreen
  · simp only [suppressSpill, if_neg (by simp : ¬(false = true))]
    have hE0 : 0 ≤ max 0 (c.z - (c.x + c.y) * (1/2)) := le_max_left _ _
    have hEz : max 0 (c.z - (c.x + c.y) * (1/2)) ≤ c.z :=
      max_le hz0 (by linarith)
    have hEam0 : 0 ≤ max 0 (c.z - (c.x + c.y) * (1/2)) * amount :=
      mul_nonneg hE0 ha0
    have hEam : max 0 (c.z - (c.x + c.y) * (1/2)) * amount ≤
        max 0 (c.z - (c.x + c.y) * (1/2)) := mul_le_of_le_one_right hE0 ha1
    refine ⟨⟨le_min (by norm_num) (by linarith), min_le_left _ _⟩,
      ⟨le_min (by norm_num) (by linarith), min_le_left _ _⟩,
      ⟨by linarith, by linarith⟩, ?_, ?_⟩
    · intro h
      exact absurd h (by simp)
    · intro _ havg
      have hEe : max 0 (c.z - (c.x + c.y) * (1/2)) =
          c.z - (c.x + c.y) * (1/2) := max_eq_right (by linarith)
      rw [hEe] at hEam ⊢
      show (c.x + c.y) * (1/2) ≤ c.z - (c.z - (c.x + c.y) * (1/2)) * amount
      linarith
  · simp only [suppressSpill, if_pos trivial]
    have hE0 : 0 ≤ max 0 (c.y - (c.x + c.z) * (1/2)) := le_max_left _ _
    have hEy : max 0 (c.y - (c.x + c.z) * (1/2)) ≤ c.y :=
      max_le hy0 (by linarith)
    have hEam0 : 0 ≤ max 0 (c.y - (c.x + c.z) * (1/2)) * amount :=
      mul_nonneg hE0 ha0
    have hEam : max 0 (c.y - (c.x + c.z) * (1/2)) * amount ≤
        max 0 (c.y - (c.x + c.z) * (1/2)) := mul_le_of_le_one_right hE0 ha1
    refine ⟨⟨le_min (by norm_num) (by linarith), min_le_left _ _⟩,
      ⟨by linarith, by linarith⟩,
      ⟨le_min (by norm_num) (by linarith), min_le_left _ _⟩, ?_, ?_⟩
    · intro _ havg
      have hEe : max 0 (c.y - (c.x + c.z) * (1/2)) =
          c.y - (c.x + c.z) * (1/2) := max_eq_right (by linarith)
      rw [hEe] at hEam ⊢
      show (c.x + c.z) * (1/2) ≤ c.y - (c.y - (c.x + c.z) * (1/2)) * amount
      linarith
    · intro h
      exact absurd h (by simp)

/-- Witness for C10 at pure green with a concrete suppression amount. -/
theorem C10_witness :
    0 ≤ ((⟨0, 1, 0⟩ : Vec3)).y ∧
    0 ≤ (suppressSpill ⟨0, 1, 0⟩ (35/100) true).y ∧
    (suppressSpill ⟨0, 1, 0⟩ (35/100) true).y ≤ 1 := by
  have h := (C10_suppressSpill_bounds ⟨0, 1, 0⟩ (35/100) true
    (by norm_num) (by norm_num) (by norm_num) (by norm_num) (by norm_num)
    (by norm_num) (by norm_num) (by norm_num)).2.1
  exact ⟨by norm_num, h.1, h.2⟩

end AlphaVideo
